import Mathlib

/-!
# A verification development for the goauth storage layer

This file gives a shallow embedding, in Lean 4, of the session- and
credential-storage core of the goauth library (files `redis.go` and `sql.go`),
and proves or refutes a list of claims about it.

Conventions of the embedding:

* Go machine integers (`uint64`, `int64`) become `Nat`/`Int`; where a bound is
  semantically relevant (e.g. `strconv.ParseUint`'s 64-bit limit) it appears
  as an explicit check.
* Time (`time.Time`, `time.Duration`) is modelled at second granularity, the
  granularity of the `RedisDateFormat` layout `"2006-01-02 15:04:05"` that the
  code uses for storage.  A timestamp is a `Nat` (seconds), a duration a `Nat`
  or, where Redis TTL sentinels (-1 "no TTL", -2 "no key") are involved, an
  `Int`.  The textual timestamp format is modelled by an injective decimal
  rendering with an exact parsing inverse, matching the exact round-trip
  property of the real layout at second precision.
* The Redis keyspace is a single flat association list from string keys to
  values (hash / set / string), because the code's behaviour under study
  depends on exact key strings (`"skey:" + key` versus `key`).  Transport
  failures of the Redis client and of `database/sql` are not modelled: every
  command executes; the error values under study are the logical ones the Go
  code constructs itself (`ErrKeyNotFound`, `ErrUserNotFound`, parse errors,
  the "Weird value/type" corruption errors, ...).
* The SQL backends are modelled by their visible effect on the table contents,
  following the concrete query strings of `MySQLSessionTemplate` /
  `MySQLUserQueries` (the Postgres/SQLite strings differ only in placeholder
  syntax).
* Asynchronous maintenance (`go func()` in `CreateEntry`) is modelled as an
  explicit state-to-state function, applied separately from the synchronous
  part of `CreateEntry`, mirroring the fact that the caller's result does not
  depend on it.
-/

namespace Goauth

/-! ## Decimal rendering and parsing

Models `fmt.Sprintf("%v", n)` / `strconv.ParseUint(s, 10, 64)` for unsigned
integers, and the storage round-trip of the second-granularity timestamp
format (`RedisDateFormat`): formatting is injective and parsing is its exact
inverse. -/

/-- The character for a single decimal digit. -/
def digitChar (d : Nat) : Char :=
  match d with
  | 0 => '0' | 1 => '1' | 2 => '2' | 3 => '3' | 4 => '4'
  | 5 => '5' | 6 => '6' | 7 => '7' | 8 => '8' | 9 => '9'
  | _ => '*'

/-- Is `c` an ASCII decimal digit? -/
def isDigitCh (c : Char) : Bool := 48 ≤ c.toNat && c.toNat ≤ 57

/-- Numeric value of an ASCII digit character. -/
def dval (c : Char) : Nat := c.toNat - 48

/-- Fuel-driven decimal rendering, most significant digit first. -/
def natDigitsCore : Nat → Nat → List Char → List Char
  | 0, _, acc => acc
  | fuel+1, n, acc =>
    if n < 10 then digitChar n :: acc
    else natDigitsCore fuel (n / 10) (digitChar (n % 10) :: acc)

/-- Decimal digits of `n` (`n+1` is always enough fuel). -/
def natDigits (n : Nat) : List Char := natDigitsCore (n+1) n []

/-- Decimal rendering of an unsigned integer, as produced by
`fmt.Sprintf("%v", n)` for a `uint64`. -/
def formatNat (n : Nat) : String := String.mk (natDigits n)

/-- Parse a list of characters as an unsigned decimal numeral: nonempty, all
digits. -/
def parseDecList (l : List Char) : Option Nat :=
  if l ≠ [] ∧ l.all isDigitCh then
    some (l.foldl (fun a c => a * 10 + dval c) 0)
  else none

/-- Parse a string as an unsigned decimal numeral (no width bound; used to
model parsing of the stored timestamp format, whose round-trip is exact). -/
def parseDec (s : String) : Option Nat := parseDecList s.data

/-- `strconv.ParseUint(s, 10, 64)`: decimal parse plus the 64-bit bound. -/
def parseUint (s : String) : Option Nat :=
  match parseDec s with
  | some n => if n < 2^64 then some n else none
  | none => none

theorem dval_digitChar {d : Nat} (h : d < 10) : dval (digitChar d) = d := by
  interval_cases d <;> decide

theorem isDigitCh_digitChar {d : Nat} (h : d < 10) : isDigitCh (digitChar d) = true := by
  interval_cases d <;> decide

theorem natDigitsCore_append (fuel : Nat) : ∀ n acc,
    natDigitsCore fuel n acc = natDigitsCore fuel n [] ++ acc := by
  induction fuel with
  | zero => intro n acc; simp [natDigitsCore]
  | succ f ih =>
    intro n acc
    by_cases h : n < 10
    · simp [natDigitsCore, h]
    · simp only [natDigitsCore, if_neg h]
      rw [ih (n / 10) (digitChar (n % 10) :: acc), ih (n / 10) [digitChar (n % 10)]]
      simp

theorem natDigitsCore_fuel (f₁ : Nat) : ∀ f₂ n acc, n < f₁ → n < f₂ →
    natDigitsCore f₁ n acc = natDigitsCore f₂ n acc := by
  induction f₁ with
  | zero => intro f₂ n acc h₁ _; omega
  | succ g₁ ih =>
    intro f₂ n acc h₁ h₂
    match f₂ with
    | 0 => omega
    | g₂+1 =>
      by_cases h : n < 10
      · simp [natDigitsCore, h]
      · simp only [natDigitsCore, if_neg h]
        have hd : n / 10 < n := Nat.div_lt_self (by omega) (by omega)
        exact ih (g₂) (n / 10) _ (by omega) (by omega)

theorem natDigitsCore_all_digits (fuel : Nat) : ∀ n acc, acc.all isDigitCh = true →
    (natDigitsCore fuel n acc).all isDigitCh = true := by
  induction fuel with
  | zero => intro n acc h; simpa [natDigitsCore] using h
  | succ f ih =>
    intro n acc h
    by_cases hn : n < 10
    · simp [natDigitsCore, hn, isDigitCh_digitChar hn, h]
    · simp only [natDigitsCore, if_neg hn]
      exact ih (n / 10) _ (by
        simp [h, isDigitCh_digitChar (Nat.mod_lt n (by omega))])

theorem natDigits_ne_nil (n : Nat) : natDigits n ≠ [] := by
  unfold natDigits
  by_cases h : n < 10
  · simp [natDigitsCore, h]
  · simp only [natDigitsCore, if_neg h]
    rw [natDigitsCore_append]
    simp

theorem natDigits_foldl (n : Nat) :
    (natDigits n).foldl (fun a c => a * 10 + dval c) 0 = n := by
  induction n using Nat.strong_induction_on with
  | _ n ih =>
    unfold natDigits
    by_cases h : n < 10
    · simp [natDigitsCore, h, dval_digitChar h]
    · simp only [natDigitsCore, if_neg h]
      have hd : n / 10 < n := Nat.div_lt_self (by omega) (by omega)
      rw [natDigitsCore_append, natDigitsCore_fuel n (n / 10 + 1) (n / 10) [] (by omega) (by omega)]
      rw [List.foldl_append]
      have := ih (n / 10) hd
      unfold natDigits at this
      rw [this]
      simp only [List.foldl_cons, List.foldl_nil]
      rw [dval_digitChar (Nat.mod_lt n (by omega))]
      omega

/-- The storage round-trip: parsing a rendered numeral recovers the number. -/
theorem parseDec_formatNat (n : Nat) : parseDec (formatNat n) = some n := by
  unfold parseDec formatNat parseDecList
  simp only [String.data]
  rw [if_pos ⟨natDigits_ne_nil n, natDigitsCore_all_digits (n+1) n [] rfl⟩]
  rw [natDigits_foldl n]

/-- `strconv.ParseUint` round-trip for values in the `uint64` range. -/
theorem parseUint_formatNat {n : Nat} (h : n < 2^64) :
    parseUint (formatNat n) = some n := by
  unfold parseUint
  rw [parseDec_formatNat n]
  norm_num at h ⊢
  simp [h]

/-! ## Error values

Distinct Go error values become distinct constructors.  `ErrKeyNotFound` and
`ErrUserNotFound` are package-level sentinels of the repository (declared in a
file not present under `src/`; the spec describes them as the distinguished
not-found errors of the error taxonomy). -/

/-- The distinct error values constructed by the code under study. -/
inductive GoErr where
  /-- `ErrKeyNotFound`: session key absent. -/
  | keyNotFound
  /-- `ErrUserNotFound`: user absent. -/
  | userNotFound
  /-- `errors.New("Weird value stored in redis - this should not happen!")` -/
  | weirdValue
  /-- `errors.New("Weird type in redis, should not happen")` -/
  | weirdType
  /-- an error from `strconv.Parse*` / `time.Parse` -/
  | parseFailure
  /-- `errors.New("Username already in use")` -/
  | usernameInUse
  /-- `fmt.Errorf("No valid user information stored for key: %v", key)` -/
  | invalidUserInfo
  /-- unique-constraint violation reported by the SQL driver on insert -/
  | duplicateKey
  /-- an error reported by the `PasswordHandler` capability -/
  | hashError
  /-- failure of a transaction pipeline's `Exec` (the one transport failure
  modelled, because a claim depends on its ordering relative to `INCR`) -/
  | pipelineFailure
  deriving DecidableEq, Repr

/-! ## The Redis keyspace

One flat map from string keys to values; a value is a hash (field map), a set,
or a plain string.  TTLs are tracked beside the data; a key without a TTL
entry is persistent.  Transport errors of the client are not modelled; the
commands below follow the semantics of the Redis commands the Go code issues
(`SMEMBERS`, `EXISTS`, `DEL`, `HMSET`, `EXPIRE`, `TTL`, `SADD`, `HMGET`,
`GET`, `SET`, `INCR`). -/

/-- A stored Redis value. -/
inductive RVal where
  | hash (fields : List (String × String))
  | set (members : List String)
  | str (s : String)
  deriving DecidableEq, Repr

/-- Association-list lookup by string key. -/
def alookup {α : Type} : List (String × α) → String → Option α
  | [], _ => none
  | (k', v) :: rest, k => if k' = k then some v else alookup rest k

/-- Association-list update: replace the binding of `k`, or append it. -/
def aset {α : Type} : List (String × α) → String → α → List (String × α)
  | [], k, v => [(k, v)]
  | (k', v') :: rest, k, v =>
    if k' = k then (k, v) :: rest else (k', v') :: aset rest k v

/-- Association-list removal of the binding of `k`. -/
def aremove {α : Type} : List (String × α) → String → List (String × α)
  | [], _ => []
  | (k', v') :: rest, k =>
    if k' = k then rest else (k', v') :: aremove rest k

/-- The whole Redis keyspace: data plus per-key TTLs (seconds). -/
structure RedisState where
  data : List (String × RVal)
  ttl : List (String × Int)
  deriving DecidableEq, Repr

/-- `EXISTS k`: 1 if present, 0 otherwise. -/
def rexists (st : RedisState) (k : String) : Int :=
  if (alookup st.data k).isSome then 1 else 0

/-- `SMEMBERS k`: members of the set at `k`, empty if absent. -/
def smembersCmd (st : RedisState) (k : String) : List String :=
  match alookup st.data k with
  | some (.set ms) => ms
  | _ => []

/-- `DEL k...`: remove the keys, returning how many existed. -/
def delCmd : RedisState → List String → RedisState × Int
  | st, [] => (st, 0)
  | st, k :: ks =>
    if (alookup st.data k).isSome then
      let res := delCmd ⟨aremove st.data k, aremove st.ttl k⟩ ks
      (res.1, res.2 + 1)
    else delCmd st ks

/-- `HMSET k fields`: set the given hash fields, keeping other fields and the
key's TTL; creates the key (persistent) if absent. -/
def hmsetCmd (st : RedisState) (k : String) (fields : List (String × String)) :
    RedisState :=
  let old : List (String × String) :=
    match alookup st.data k with
    | some (.hash h) => h
    | _ => []
  { st with data := aset st.data k (.hash (fields.foldl (fun h fv => aset h fv.1 fv.2) old)) }

/-- `EXPIRE k d`: set the TTL of an existing key; a nonpositive `d` deletes
the key; no effect on an absent key. -/
def expireCmd (st : RedisState) (k : String) (d : Int) : RedisState :=
  if (alookup st.data k).isSome then
    if d ≤ 0 then ⟨aremove st.data k, aremove st.ttl k⟩
    else { st with ttl := aset st.ttl k d }
  else st

/-- `TTL k` as returned by the client: -2 if the key is absent, -1 if it has
no TTL, otherwise the TTL. -/
def ttlCmd (st : RedisState) (k : String) : Int :=
  match alookup st.data k with
  | none => -2
  | some _ =>
    match alookup st.ttl k with
    | some d => d
    | none => -1

/-- `SADD k m`: add a member to the set at `k`, creating the set (persistent)
if absent. -/
def saddCmd (st : RedisState) (k : String) (m : String) : RedisState :=
  match alookup st.data k with
  | some (.set ms) =>
    if m ∈ ms then st
    else { st with data := aset st.data k (.set (ms ++ [m])) }
  | _ => { st with data := aset st.data k (.set [m]) }

/-- `HMGET k fields`: the values of the given hash fields, `none` for a
missing field or an absent key. -/
def hmgetCmd (st : RedisState) (k : String) (fields : List String) :
    List (Option String) :=
  match alookup st.data k with
  | some (.hash h) => fields.map (alookup h)
  | _ => fields.map (fun _ => none)

/-- `GET k`: the plain string at `k` (`redis.Nil`, i.e. `none`, if absent). -/
def getCmd (st : RedisState) (k : String) : Option String :=
  match alookup st.data k with
  | some (.str s) => some s
  | _ => none

/-- `SET k v 0`: store a persistent plain string. -/
def setCmd (st : RedisState) (k : String) (v : String) : RedisState :=
  ⟨aset st.data k (.str v), aremove st.ttl k⟩

/-- `INCR k`: increment the integer at `k` (0 if absent), returning the new
value; errors if the stored value is not an integer string. -/
def incrCmd (st : RedisState) (k : String) : RedisState × Except GoErr Nat :=
  match alookup st.data k with
  | none => ({ st with data := aset st.data k (.str (formatNat 1)) }, .ok 1)
  | some (.str s) =>
    match parseDec s with
    | some n =>
      ({ st with data := aset st.data k (.str (formatNat (n + 1))) }, .ok (n + 1))
    | none => (st, .error .parseFailure)
  | some _ => (st, .error .weirdType)

/-! ## Session data and the clock

`UserKeyType` is `interface{}` in Go; the handlers under study use the default
`uint64` user representation (`fmt.Sprintf("%v", user)` to store,
`strconv.ParseUint` back — the default `ConvertUser`), so users are `Nat`
here.  The clock is passed explicitly. -/

/-- `SessionKeyData`: one session record. -/
structure SessionKeyData where
  user : Nat
  creationTime : Nat
  validUntil : Nat
  deriving DecidableEq, Repr

/-- Modelled from the spec: `CurrentTimeKeyData(user, validDuration)` is
defined in a repository file not present under `src/`; per the spec it
"records `creationTime = now`, `validUntil = now + validDuration`".  The
current time is an explicit argument. -/
def CurrentTimeKeyData (now : Nat) (user : Nat) (validDuration : Nat) :
    SessionKeyData :=
  { user := user, creationTime := now, validUntil := now + validDuration }

/-! ## RedisSessionHandler (redis.go)

Timestamps are stored through `Format(RedisDateFormat)` and read back through
`time.Parse(RedisDateFormat, ...)`; at the second granularity of the model
this is the injective rendering `formatNat` with inverse `parseDec`. -/

/-- The prefixes of a `RedisSessionHandler`; `NewRedisSessionHandler` uses
`"skey:"` and `"usessions:"`. -/
structure RedisSessionHandler where
  sessionPfx : String
  userPfx : String
  deriving DecidableEq, Repr

/-- `NewRedisSessionHandler` defaults. -/
def newRedisSessionHandler : RedisSessionHandler :=
  { sessionPfx := "skey:", userPfx := "usessions:" }

/-- `delUserKeys(userIdentifier, delAll)`: read the user's set; with
`delAll` collect every member as-is, otherwise collect
`SessionPrefix+userKey` for each member whose session record no longer
exists; then issue one `DEL` of the collected keys, returning the number
actually removed. -/
def delUserKeys (h : RedisSessionHandler) (st : RedisState)
    (userIdentifier : String) (delAll : Bool) : RedisState × Int :=
  let allUserKeys := smembersCmd st userIdentifier
  let keysForDelete := allUserKeys.foldl
    (fun ks userKey =>
      if delAll then ks ++ [userKey]
      else if rexists st (h.sessionPfx ++ userKey) = 0 then
        ks ++ [h.sessionPfx ++ userKey]
      else ks)
    []
  if keysForDelete ≠ [] then delCmd st keysForDelete else (st, 0)

/-- The synchronous part of `RedisSessionHandler.CreateEntry`: build the
record, `HMSET` it at `SessionPrefix+key`, `EXPIRE` it to `validDuration`,
and return the record.  The `go func()` maintenance body is
`redisCreateEntryMaintain` below. -/
def redisCreateEntry (h : RedisSessionHandler) (st : RedisState) (now : Nat)
    (user : Nat) (key : String) (validDuration : Nat) :
    RedisState × SessionKeyData :=
  let data := CurrentTimeKeyData now user validDuration
  let redisKey := h.sessionPfx ++ key
  let st1 := hmsetCmd st redisKey
    [("User", formatNat user),
     ("CreationTime", formatNat data.creationTime),
     ("ValidUntil", formatNat data.validUntil)]
  let st2 := expireCmd st1 redisKey (validDuration : Int)
  (st2, data)

/-- The body of the `go func()` in `CreateEntry`: `SADD` the key to the
user's set, set the set's expiration to `validDuration` unless the current
TTL is larger, then run the `delUserKeys(userIdentifier, false)` sweep. -/
def redisCreateEntryMaintain (h : RedisSessionHandler) (st : RedisState)
    (user : Nat) (key : String) (validDuration : Nat) : RedisState :=
  let userIdentifier := h.userPfx ++ formatNat user
  let st1 := saddCmd st userIdentifier key
  -- get current TTL, set Expiration to max of TTL and validDuration
  let ttl := ttlCmd st1 userIdentifier
  let userExp := if ttl > (validDuration : Int) then ttl else (validDuration : Int)
  let st2 := expireCmd st1 userIdentifier userExp
  (delUserKeys h st2 userIdentifier false).1

/-- The field-decoding loop of `RedisSessionHandler.GetData` over the
`HMGET` result: a `nil` first slot is `ErrKeyNotFound`; then each slot must
be a string (else the "Weird value" error) and must convert/parse
(`ConvertUser` = `strconv.ParseUint`, `time.Parse`). -/
def sessionDataFrom (entry : List (Option String)) : Except GoErr SessionKeyData :=
  match entry with
  | [e0, e1, e2] =>
    if e0 = none then .error .keyNotFound
    else
      match e0 with
      | none => .error .keyNotFound
      | some s0 =>
        match parseUint s0 with
        | none => .error .parseFailure
        | some user =>
          match e1 with
          | none => .error .weirdValue
          | some s1 =>
            match parseDec s1 with
            | none => .error .parseFailure
            | some creation =>
              match e2 with
              | none => .error .weirdValue
              | some s2 =>
                match parseDec s2 with
                | none => .error .parseFailure
                | some valid =>
                  .ok { user := user, creationTime := creation, validUntil := valid }
  | _ => .error .weirdValue

/-- `RedisSessionHandler.GetData`: `HMGET` the three fields at
`SessionPrefix+key` and decode them. -/
def redisGetData (h : RedisSessionHandler) (st : RedisState) (key : String) :
    Except GoErr SessionKeyData :=
  sessionDataFrom
    (hmgetCmd st (h.sessionPfx ++ key) ["User", "CreationTime", "ValidUntil"])

/-- `RedisSessionHandler.DeleteKey`: `DEL SessionPrefix+key`. -/
def redisDeleteKey (h : RedisSessionHandler) (st : RedisState) (key : String) :
    RedisState :=
  (delCmd st [h.sessionPfx ++ key]).1

/-- `RedisSessionHandler.DeleteEntriesForUser`:
`delUserKeys(UserPrefix+user, true)`. -/
def redisDeleteEntriesForUser (h : RedisSessionHandler) (st : RedisState)
    (user : Nat) : RedisState × Int :=
  delUserKeys h st (h.userPfx ++ formatNat user) true

/-- `RedisSessionHandler.DeleteInvalidKeys`: returns `(0, nil)`. -/
def redisDeleteInvalidKeys (st : RedisState) : RedisState × Int := (st, 0)

/-! ## RedisUserHandler (redis.go)

Password hashing is the external `PasswordHandler` capability: `GenerateHash`
and `CheckPassword`, both fallible; a password mismatch is a `false` result,
not an error.  Plaintexts and hashes are strings. -/

/-- The `PasswordHandler` capability. -/
structure PasswordHandler where
  generateHash : String → Except GoErr String
  checkPassword : String → String → Except GoErr Bool

/-- Modelled from the spec: `NoUserID`, the sentinel "no user" ID (declared in
a repository file not present under `src/`): a reserved value distinct from
any real user ID, here the maximal `uint64`. -/
def NoUserID : Nat := 2^64 - 1

/-- Key layout of a `RedisUserHandler`; `NewRedisUserHandler` uses `"user:"`,
`"nxtUserid"` and `"userID:"`. -/
structure RedisUserHandler where
  userPfx : String
  nextIDKey : String
  userIDPfx : String
  deriving DecidableEq, Repr

/-- `NewRedisUserHandler` defaults. -/
def newRedisUserHandler : RedisUserHandler :=
  { userPfx := "user:", nextIDKey := "nxtUserid", userIDPfx := "userID:" }

/-- `strconv.ParseBool`. -/
def parseBool (s : String) : Option Bool :=
  if s = "1" ∨ s = "t" ∨ s = "T" ∨ s = "TRUE" ∨ s = "true" ∨ s = "True" then
    some true
  else if s = "0" ∨ s = "f" ∨ s = "F" ∨ s = "FALSE" ∨ s = "false" ∨ s = "False" then
    some false
  else none

/-- `RedisUserHandler.Insert`: hash the password, fail if the user key
exists, `INCR` the ID counter, then write the user hash and the
`userID:` reverse mapping in one transaction pipeline.  `writeOk` models
whether the pipeline's `Exec` succeeds (the one transport failure a claim's
ordering depends on); on failure the transaction applies nothing. -/
def redisUserInsert (h : RedisUserHandler) (pw : PasswordHandler)
    (st : RedisState) (now : Nat) (userName firstName lastName email : String)
    (plainPW : String) (writeOk : Bool) : RedisState × Except GoErr Nat :=
  match pw.generateHash plainPW with
  | .error e => (st, .error e)
  | .ok encrypted =>
    let userkey := h.userPfx ++ userName
    if rexists st userkey > 0 then (st, .error .usernameInUse)
    else
      match incrCmd st h.nextIDKey with
      | (st', .error e) => (st', .error e)
      | (st', .ok id) =>
        if writeOk then
          let st'' := hmsetCmd st' userkey
            [("id", formatNat id), ("username", userName),
             ("firstName", firstName), ("lastName", lastName),
             ("email", email), ("is_active", "1"),
             ("last_login", formatNat now), ("password", encrypted)]
          (setCmd st'' (h.userIDPfx ++ formatNat id) userName, .ok id)
        else (st', .error .pipelineFailure)

/-- The decoding-and-checking part of `RedisUserHandler.Validate` over the
`HMGET id, password` result: a `nil` id slot is `ErrUserNotFound`; a `nil`
password slot is the "Weird type" error; then check the password — a
mismatch returns `(NoUserID, nil)`, a match parses and returns the stored
ID. -/
def validateFrom (pw : PasswordHandler) (entry : List (Option String))
    (cleartextPwCheck : String) : Except GoErr Nat :=
  match entry with
  | [e0, e1] =>
    match e0 with
    | none => .error .userNotFound
    | some idStr =>
      match e1 with
      | none => .error .weirdType
      | some pwStr =>
        match pw.checkPassword pwStr cleartextPwCheck with
        | .error e => .error e
        | .ok true =>
          match parseUint idStr with
          | none => .error .parseFailure
          | some id => .ok id
        | .ok false => .ok NoUserID
  | _ => .error .weirdType

/-- `RedisUserHandler.Validate`: `HMGET id, password` at
`UserPrefix+userName` and decode/check. -/
def redisUserValidate (h : RedisUserHandler) (pw : PasswordHandler)
    (st : RedisState) (userName : String) (cleartextPwCheck : String) :
    Except GoErr Nat :=
  validateFrom pw (hmgetCmd st (h.userPfx ++ userName) ["id", "password"])
    cleartextPwCheck

/-- `RedisUserHandler.UpdatePassword`: hash, `EXISTS` check
(`ErrUserNotFound` if absent), then `HMSET` the password field. -/
def redisUserUpdatePassword (h : RedisUserHandler) (pw : PasswordHandler)
    (st : RedisState) (userName : String) (plainPW : String) :
    RedisState × Except GoErr Unit :=
  match pw.generateHash plainPW with
  | .error e => (st, .error e)
  | .ok encrypted =>
    let userkey := h.userPfx ++ userName
    if rexists st userkey = 0 then (st, .error .userNotFound)
    else (hmsetCmd st userkey [("password", encrypted)], .ok ())

/-- Does the character list `p` occur as an initial segment of `l`?  (Models
the `SCAN ... MATCH "user:*"` glob of `ListUsers`.) -/
def listStartsWith : List Char → List Char → Bool
  | [], _ => true
  | _ :: _, [] => false
  | p :: ps, c :: cs => p = c && listStartsWith ps cs

/-- Insert-or-replace into a `uint64`-keyed map, modelled as an association
list (`res[id] = name`). -/
def asetN : List (Nat × String) → Nat → String → List (Nat × String)
  | [], k, v => [(k, v)]
  | (k', v') :: rest, k, v =>
    if k' = k then (k, v) :: rest else (k', v') :: asetN rest k v

/-- The per-key body of `RedisUserHandler.ListUsers`' scan loop. -/
def redisListUsersLoop (st : RedisState) (pfx : String) :
    List (String × RVal) → List (Nat × String) →
    Except GoErr (List (Nat × String))
  | [], res => .ok res
  | (k, _) :: rest, res =>
    if listStartsWith pfx.data k.data then
      match hmgetCmd st k ["id", "username"] with
      | [e0, e1] =>
        match e0 with
        | none => .error .invalidUserInfo
        | some idStr =>
          match parseUint idStr with
          | none => .error .parseFailure
          | some id =>
            match e1 with
            | none => .error .invalidUserInfo
            | some name => redisListUsersLoop st pfx rest (asetN res id name)
      | _ => .error .invalidUserInfo
    else redisListUsersLoop st pfx rest res

/-- `RedisUserHandler.ListUsers`: scan all keys matching `UserPrefix+"*"`,
read `id` and `username` of each, and build the `id -> username` map. -/
def redisListUsers (h : RedisUserHandler) (st : RedisState) :
    Except GoErr (List (Nat × String)) :=
  redisListUsersLoop st h.userPfx st.data []

/-- `RedisUserHandler.GetUserName`: `GET userID:<id>`; `redis.Nil` becomes
`ErrUserNotFound`. -/
def redisGetUserName (h : RedisUserHandler) (st : RedisState) (id : Nat) :
    Except GoErr String :=
  match getCmd st (h.userIDPfx ++ formatNat id) with
  | none => .error .userNotFound
  | some name => .ok name

/-- `RedisUserHandler.DeleteUser`: read the user's `id` field; a `nil` slot
returns `nil` (no error); otherwise delete the user hash and the reverse
mapping in one transaction pipeline. -/
def redisDeleteUser (h : RedisUserHandler) (st : RedisState)
    (userName : String) : RedisState × Except GoErr Unit :=
  let userkey := h.userPfx ++ userName
  match hmgetCmd st userkey ["id"] with
  | [e0] =>
    match e0 with
    | none => (st, .ok ())
    | some idStr =>
      ((delCmd st [userkey, h.userIDPfx ++ idStr]).1, .ok ())
  | _ => (st, .error .weirdType)

/-- `BaseUserInformation`. -/
structure BaseUserInformation where
  id : Nat
  userName : String
  firstName : String
  lastName : String
  email : String
  lastLogin : Nat
  isActive : Bool
  deriving DecidableEq, Repr

/-- `RedisUserHandler.GetUserBaseInfo`: `HMGET` six fields; any `nil` slot is
`ErrUserNotFound`; then parse `id`, `is_active` and `last_login`. -/
def redisGetUserBaseInfo (h : RedisUserHandler) (st : RedisState)
    (userName : String) : Except GoErr BaseUserInformation :=
  let userkey := h.userPfx ++ userName
  match hmgetCmd st userkey
      ["id", "firstName", "lastName", "email", "is_active", "last_login"] with
  | [e0, e1, e2, e3, e4, e5] =>
    match e0, e1, e2, e3, e4, e5 with
    | some s0, some s1, some s2, some s3, some s4, some s5 =>
      match parseUint s0 with
      | none => .error .parseFailure
      | some id =>
        match parseBool s4 with
        | none => .error .parseFailure
        | some isActive =>
          match parseDec s5 with
          | none => .error .parseFailure
          | some lastLogin =>
            .ok { id := id, userName := userName, firstName := s1,
                  lastName := s2, email := s3, lastLogin := lastLogin,
                  isActive := isActive }
    | _, _, _, _, _, _ => .error .userNotFound
  | _ => .error .weirdType

/-- `RedisUserHandler.GetUserID`: `HMGET id`; a `nil` slot is
`ErrUserNotFound`; otherwise parse the ID. -/
def redisGetUserID (h : RedisUserHandler) (st : RedisState)
    (userName : String) : Except GoErr Nat :=
  let userkey := h.userPfx ++ userName
  match hmgetCmd st userkey ["id"] with
  | [e0] =>
    match e0 with
    | none => .error .userNotFound
    | some idStr =>
      match parseUint idStr with
      | none => .error .parseFailure
      | some id => .ok id
  | _ => .error .weirdType

/-! ## SQLSessionHandler (sql.go)

The table is modelled by its rows; temporal columns hold the timestamp
directly (the `TimeFromScanType` conversion returns the stored instant for
both driver representations).  The queries are the `MySQLSessionTemplate`
strings; `session_key` is the primary key. -/

/-- One row of the session table
(`user_id, session_key, created, valid_until`). -/
structure SQLSessionRow where
  user : Nat
  key : String
  created : Nat
  validUntil : Nat
  deriving DecidableEq, Repr

/-- `SQLSessionHandler.CreateEntry`: `INSERT INTO ... VALUES (user, key,
created, valid_until)`; the primary key on `session_key` makes a duplicate
key a driver error. -/
def sqlCreateEntry (rows : List SQLSessionRow) (now : Nat) (user : Nat)
    (key : String) (validDuration : Nat) :
    List SQLSessionRow × Except GoErr SessionKeyData :=
  let data := CurrentTimeKeyData now user validDuration
  if rows.any (fun r => r.key = key) then (rows, .error .duplicateKey)
  else (rows ++ [⟨user, key, data.creationTime, data.validUntil⟩], .ok data)

/-- `SQLSessionHandler.GetData`: `SELECT user_id, created, valid_until ...
WHERE session_key = ?`; `sql.ErrNoRows` becomes `ErrKeyNotFound`. -/
def sqlGetData (rows : List SQLSessionRow) (key : String) :
    Except GoErr SessionKeyData :=
  match rows.find? (fun r => r.key = key) with
  | none => .error .keyNotFound
  | some r => .ok { user := r.user, creationTime := r.created, validUntil := r.validUntil }

/-- `SQLSessionHandler.DeleteEntriesForUser`: `DELETE ... WHERE user_id = ?`,
returning `RowsAffected`. -/
def sqlDeleteEntriesForUser (rows : List SQLSessionRow) (user : Nat) :
    List SQLSessionRow × Int :=
  (rows.filter (fun r => ¬ r.user = user),
   ((rows.filter (fun r => r.user = user)).length : Int))

/-- `SQLSessionHandler.DeleteInvalidKeys`: executes
`DELETE FROM ... WHERE ? > valid_until` with `?" = CurrentTime()`, returning
`RowsAffected`. -/
def sqlDeleteInvalidKeys (rows : List SQLSessionRow) (now : Nat) :
    List SQLSessionRow × Int :=
  (rows.filter (fun r => ¬ now > r.validUntil),
   ((rows.filter (fun r => now > r.validUntil)).length : Int))

/-- `SQLSessionHandler.DeleteKey`: `DELETE ... WHERE session_key = ?`. -/
def sqlDeleteKey (rows : List SQLSessionRow) (key : String) :
    List SQLSessionRow :=
  rows.filter (fun r => ¬ r.key = key)

/-! ## SQLUserHandler (sql.go)

The `users` table: `id SERIAL` (assigned by the store), `UNIQUE(username)`.
The driver's `LastInsertId` after an insert is an explicit argument of
`Insert`, since the Go code's result depends on its failure modes. -/

/-- One row of the `users` table. -/
structure SQLUserRow where
  id : Nat
  username : String
  firstName : String
  lastName : String
  email : String
  password : String
  isActive : Bool
  lastLogin : Nat
  deriving DecidableEq, Repr

/-- The `users` table with its auto-increment state. -/
structure SQLUserDB where
  nextId : Nat
  rows : List SQLUserRow
  deriving DecidableEq, Repr

/-- `SQLUserHandler.Insert`: hash, then `INSERT`; a duplicate username is a
driver error (UNIQUE constraint); on success the store assigns the next ID,
and the code then asks the driver for `LastInsertId` (`lastIdRes`): a failing
or negative result yields `(NoUserID, nil)`, otherwise
`(uint64(lastInsertId), nil)`. -/
def sqlUserInsert (pw : PasswordHandler) (db : SQLUserDB) (now : Nat)
    (userName firstName lastName email : String) (plainPW : String)
    (lastIdRes : Except Unit Int) : SQLUserDB × Except GoErr Nat :=
  match pw.generateHash plainPW with
  | .error e => (db, .error e)
  | .ok encrypted =>
    if db.rows.any (fun r => r.username = userName) then
      (db, .error .duplicateKey)
    else
      let db' : SQLUserDB :=
        { nextId := db.nextId + 1,
          rows := db.rows ++ [⟨db.nextId, userName, firstName, lastName,
                              email, encrypted, true, now⟩] }
      match lastIdRes with
      | .error _ => (db', .ok NoUserID)
      | .ok insertInt =>
        if insertInt < 0 then (db', .ok NoUserID)
        else (db', .ok insertInt.toNat)

/-- `SQLUserHandler.Validate`: `SELECT id, password ... WHERE username = ?`;
`sql.ErrNoRows` becomes `ErrUserNotFound`; then `CheckPassword` — a mismatch
returns `(NoUserID, nil)`. -/
def sqlUserValidate (pw : PasswordHandler) (db : SQLUserDB)
    (userName : String) (cleartextPwCheck : String) : Except GoErr Nat :=
  match db.rows.find? (fun r => r.username = userName) with
  | none => .error .userNotFound
  | some r =>
    match pw.checkPassword r.password cleartextPwCheck with
    | .error e => .error e
    | .ok true => .ok r.id
    | .ok false => .ok NoUserID

/-- `SQLUserHandler.UpdatePassword`: hash, then `UPDATE users SET password=?
WHERE username=?`; the affected-row count is not inspected. -/
def sqlUpdatePassword (pw : PasswordHandler) (db : SQLUserDB)
    (userName : String) (plainPW : String) : SQLUserDB × Except GoErr Unit :=
  match pw.generateHash plainPW with
  | .error e => (db, .error e)
  | .ok encrypted =>
    ({ db with rows := db.rows.map (fun r =>
        if r.username = userName then { r with password := encrypted } else r) },
     .ok ())

/-- `SQLUserHandler.ListUsers`: `SELECT id, username FROM users`, building
the `id -> username` map. -/
def sqlListUsers (db : SQLUserDB) : Except GoErr (List (Nat × String)) :=
  .ok (db.rows.foldl (fun res r => asetN res r.id r.username) [])

/-- `SQLUserHandler.GetUserName`: `SELECT username ... WHERE id=?`;
`sql.ErrNoRows` becomes `ErrUserNotFound`. -/
def sqlGetUserName (db : SQLUserDB) (id : Nat) : Except GoErr String :=
  match db.rows.find? (fun r => r.id = id) with
  | none => .error .userNotFound
  | some r => .ok r.username

/-- `SQLUserHandler.DeleteUser`: `DELETE FROM users WHERE username=?`; the
affected-row count is not inspected. -/
def sqlDeleteUser (db : SQLUserDB) (userName : String) :
    SQLUserDB × Except GoErr Unit :=
  ({ db with rows := db.rows.filter (fun r => ¬ r.username = userName) }, .ok ())

/-- `SQLUserHandler.GetUserID`: `SELECT id ... WHERE username=?`;
`sql.ErrNoRows` becomes `ErrUserNotFound`. -/
def sqlGetUserID (db : SQLUserDB) (userName : String) : Except GoErr Nat :=
  match db.rows.find? (fun r => r.username = userName) with
  | none => .error .userNotFound
  | some r => .ok r.id

/-- `SQLUserHandler.GetUserBaseInfo`: `SELECT id, first_name, last_name,
email, is_active, last_login ... WHERE username=?`; `sql.ErrNoRows` becomes
`ErrUserNotFound`. -/
def sqlGetUserBaseInfo (db : SQLUserDB) (userName : String) :
    Except GoErr BaseUserInformation :=
  match db.rows.find? (fun r => r.username = userName) with
  | none => .error .userNotFound
  | some r =>
    .ok { id := r.id, userName := userName, firstName := r.firstName,
          lastName := r.lastName, email := r.email, lastLogin := r.lastLogin,
          isActive := r.isActive }

/-! ## Toolkit lemmas about the keyspace primitives -/

theorem alookup_aset_self {α : Type} (l : List (String × α)) (k : String) (v : α) :
    alookup (aset l k v) k = some v := by
  induction l with
  | nil => simp [aset, alookup]
  | cons kv rest ih =>
    by_cases h : kv.1 = k
    · simp [aset, alookup, h]
    · simp [aset, alookup, h, ih]

theorem alookup_aset_ne {α : Type} (l : List (String × α)) {k k' : String} (v : α)
    (h : k' ≠ k) : alookup (aset l k' v) k = alookup l k := by
  induction l with
  | nil => simp [aset, alookup, h]
  | cons kv rest ih =>
    by_cases hk : kv.1 = k'
    · simp [aset, alookup, hk, h]
    · simp only [aset, if_neg hk]
      by_cases hk2 : kv.1 = k
      · simp [alookup, hk2]
      · simp [alookup, hk2, ih]

theorem alookup_aremove_ne {α : Type} (l : List (String × α)) {k k' : String}
    (h : k' ≠ k) : alookup (aremove l k') k = alookup l k := by
  induction l with
  | nil => rfl
  | cons kv rest ih =>
    simp only [aremove]
    by_cases hk : kv.1 = k'
    · rw [if_pos hk]
      have hkvk : ¬ kv.1 = k := by rw [hk]; exact h
      conv_rhs => rw [alookup]
      rw [if_neg hkvk]
    · rw [if_neg hk]
      by_cases hk2 : kv.1 = k
      · rw [alookup, alookup, if_pos hk2, if_pos hk2]
      · rw [alookup, alookup, if_neg hk2, if_neg hk2]
        exact ih

/-- `DEL` of keys other than `k` does not affect `k`'s data or TTL binding. -/
theorem delCmd_lookup_ne : ∀ (ks : List String) (st : RedisState) (k : String),
    (∀ x ∈ ks, x ≠ k) →
    alookup (delCmd st ks).1.data k = alookup st.data k ∧
    alookup (delCmd st ks).1.ttl k = alookup st.ttl k := by
  intro ks
  induction ks with
  | nil => intro st k _; simp [delCmd]
  | cons x ks ih =>
    intro st k hne
    have hx : x ≠ k := hne x (by simp)
    have hrest : ∀ y ∈ ks, y ≠ k := fun y hy => hne y (by simp [hy])
    by_cases hex : (alookup st.data x).isSome
    · simp only [delCmd, if_pos hex]
      have := ih ⟨aremove st.data x, aremove st.ttl x⟩ k hrest
      rw [this.1, this.2]
      exact ⟨alookup_aremove_ne _ hx, alookup_aremove_ne _ hx⟩
    · simp only [delCmd, if_neg hex]
      exact ih st k hrest

/-- Every key collected by the `delAll = false` sweep of `delUserKeys` is of
the form `SessionPrefix ++ member`. -/
theorem delUserKeys_sweep_keys (h : RedisSessionHandler) (st : RedisState) :
    ∀ (ms : List String) (acc : List String) (x : String),
    x ∈ ms.foldl
      (fun ks userKey =>
        if (false : Bool) then ks ++ [userKey]
        else if rexists st (h.sessionPfx ++ userKey) = 0 then
          ks ++ [h.sessionPfx ++ userKey]
        else ks) acc →
    x ∈ acc ∨ ∃ m ∈ ms, x = h.sessionPfx ++ m := by
  intro ms
  induction ms with
  | nil => intro acc x hx; exact Or.inl hx
  | cons m ms ih =>
    intro acc x hx
    simp only [List.foldl_cons, Bool.false_eq_true, if_false] at hx
    by_cases hm : rexists st (h.sessionPfx ++ m) = 0
    · rw [if_pos hm] at hx
      rcases ih _ x hx with hacc | ⟨m', hm', rfl⟩
      · rcases List.mem_append.mp hacc with h1 | h1
        · exact Or.inl h1
        · exact Or.inr ⟨m, by simp, by simpa using h1⟩
      · exact Or.inr ⟨m', by simp [hm'], rfl⟩
    · rw [if_neg hm] at hx
      rcases ih _ x hx with hacc | ⟨m', hm', rfl⟩
      · exact Or.inl hacc
      · exact Or.inr ⟨m', by simp [hm'], rfl⟩

/-! Distinctness of the fixed key namespaces.  These are facts about the
concrete prefix strings of the default handlers. -/

theorem userkey_ne_nextIDKey (s : String) : ("user:" ++ s : String) ≠ "nxtUserid" := by
  intro hEq
  have h' := congrArg String.data hEq
  simp [String.data_append] at h'

theorem useridkey_ne_nextIDKey (s : String) : ("userID:" ++ s : String) ≠ "nxtUserid" := by
  intro hEq
  have h' := congrArg String.data hEq
  simp [String.data_append] at h'

theorem userkey_ne_useridkey (s t : String) :
    ("user:" ++ s : String) ≠ "userID:" ++ t := by
  intro hEq
  have h' := congrArg String.data hEq
  simp [String.data_append] at h'

theorem skey_ne_usessions (s t : String) :
    ("skey:" ++ s : String) ≠ "usessions:" ++ t := by
  intro hEq
  have h' := congrArg String.data hEq
  simp [String.data_append] at h'

theorem strAppend_left_inj {p a b : String} (h : (p ++ a : String) = p ++ b) :
    a = b := by
  have h' := congrArg String.data h
  simp only [String.data_append] at h'
  exact String.ext (List.append_cancel_left h')

/-! ## Claim C1 -/

/-- **C1.**  Evaluation of `DeleteEntriesForUser` at a failing input.  The
claim says the call deletes the session record at `SessionPrefix+key` for
every member of the user's set, so that `GetData` afterwards returns
`KeyNotFound`.  In the code, the `delAll` branch of `delUserKeys` collects
the *bare* member string `userKey` instead of `SessionPrefix+userKey`, so
the batched `DEL` targets keys that do not exist: here user 7 owns session
key `"k"` (record stored at `"skey:k"`, set member `"k"`), the call deletes
nothing (count 0, state unchanged) and `GetData "k"` still returns the
record rather than `KeyNotFound`. -/
theorem redis_deleteEntriesForUser_misses_session_record :
    redisDeleteEntriesForUser newRedisSessionHandler
      ⟨[("skey:k", .hash [("User", "7"), ("CreationTime", "100"), ("ValidUntil", "200")]),
        ("usessions:7", .set ["k"])], [("skey:k", 100)]⟩ 7
    = (⟨[("skey:k", .hash [("User", "7"), ("CreationTime", "100"), ("ValidUntil", "200")]),
         ("usessions:7", .set ["k"])], [("skey:k", 100)]⟩, 0) ∧
    redisGetData newRedisSessionHandler
      ⟨[("skey:k", .hash [("User", "7"), ("CreationTime", "100"), ("ValidUntil", "200")]),
        ("usessions:7", .set ["k"])], [("skey:k", 100)]⟩ "k"
    = .ok ⟨7, 100, 200⟩ := by
  constructor
  · decide
  · rfl

/-! ## Claim C5 -/

/-- **C5.**  Evaluation of the `CreateEntry` maintenance step at a failing
input.  The claim says the step removes from the per-user set exactly those
members whose session record no longer exists.  In the code, the sweep
(`delUserKeys` with `delAll = false`) issues `DEL SessionPrefix+member` for
each dead member — a no-op, since that record is already absent — and never
issues `SREM`, so the set keeps the dead member.  Here the set of user 7
holds the dead member `"dead"` (no record at `"skey:dead"`); after the full
maintenance step for a fresh session `"k"` the set is `["dead", "k"]`:
`"dead"` was not removed (the live member `"k"` is rightly present). -/
theorem redis_maintenance_keeps_dead_member :
    rexists
      ⟨[("skey:k", .hash [("User", "7"), ("CreationTime", "100"), ("ValidUntil", "160")]),
        ("usessions:7", .set ["dead"])], [("skey:k", 60)]⟩ "skey:dead" = 0 ∧
    smembersCmd
      (redisCreateEntryMaintain newRedisSessionHandler
        ⟨[("skey:k", .hash [("User", "7"), ("CreationTime", "100"), ("ValidUntil", "160")]),
          ("usessions:7", .set ["dead"])], [("skey:k", 60)]⟩ 7 "k" 60)
      "usessions:7" = ["dead", "k"] := by
  constructor
  · decide
  · decide

/-! ## Claim C2 -/

/-- **C2 (counterexample).**  The claim says a relational session record
whose `validUntil` equals the current time is removed by
`DeleteInvalidKeys`.  The query is `DELETE ... WHERE ? > valid_until` with
`? = now`, a strict comparison: at `now = 50`, a record with
`validUntil = 50` is kept and the reported count is 0. -/
theorem sqlDeleteInvalidKeys_keeps_boundary_record :
    sqlDeleteInvalidKeys [⟨1, "k", 0, 50⟩] 50 = ([⟨1, "k", 0, 50⟩], 0) := by
  decide

/-- **C2 (amended).**  `DeleteInvalidKeys` deletes exactly the session rows
with `validUntil` strictly before `now` (the query `? > valid_until`), and
returns their count; a row whose `validUntil` equals the current time is
retained. -/
theorem sqlDeleteInvalidKeys_strict_lt (rows : List SQLSessionRow) (now : Nat) :
    (sqlDeleteInvalidKeys rows now).1
      = rows.filter (fun r => decide (now ≤ r.validUntil)) ∧
    (sqlDeleteInvalidKeys rows now).2
      = ((rows.filter (fun r => decide (r.validUntil < now))).length : Int) ∧
    ∀ r ∈ rows, r.validUntil = now → r ∈ (sqlDeleteInvalidKeys rows now).1 := by
  refine ⟨?_, ?_, ?_⟩
  · exact List.filter_congr (fun r _ => by simp [decide_eq_decide])
  · rfl
  · intro r hr heq
    unfold sqlDeleteInvalidKeys
    simp only [List.mem_filter]
    exact ⟨hr, by simp [heq]⟩

/-- Witness for `sqlDeleteInvalidKeys_strict_lt` at a concrete input. -/
theorem sqlDeleteInvalidKeys_strict_lt_witness :
    (⟨1, "k", 0, 50⟩ : SQLSessionRow) ∈ (sqlDeleteInvalidKeys [⟨1, "k", 0, 50⟩] 50).1 :=
  (sqlDeleteInvalidKeys_strict_lt [⟨1, "k", 0, 50⟩] 50).2.2
    ⟨1, "k", 0, 50⟩ (by decide) rfl

/-! ## Claim C10 -/

/-- **C10.**  On the relational credential backend, when the `INSERT`
succeeds (password hashed, username free) but the driver's `LastInsertId`
fails or yields a negative value, `Insert` returns `(NoUserID, nil)` — the
sentinel with *no* error — although the user row is durably in the table, so
`(NoUserID, nil)` does not imply that no user was created. -/
theorem sqlUserInsert_lastId_failure_returns_NoUserID
    (pw : PasswordHandler) (db : SQLUserDB) (now : Nat)
    (userName firstName lastName email plainPW enc : String)
    (lastIdRes : Except Unit Int)
    (hgen : pw.generateHash plainPW = .ok enc)
    (hfree : db.rows.any (fun r => r.username = userName) = false)
    (hfail : lastIdRes = .error () ∨ ∃ v, lastIdRes = .ok v ∧ v < 0) :
    (sqlUserInsert pw db now userName firstName lastName email plainPW lastIdRes).2
      = .ok NoUserID ∧
    ((sqlUserInsert pw db now userName firstName lastName email plainPW
        lastIdRes).1).rows.any (fun r => r.username = userName) = true := by
  unfold sqlUserInsert
  rw [hgen]
  simp only [hfree, Bool.false_eq_true, if_false]
  rcases hfail with hfail | ⟨v, hfail, hneg⟩
  · subst hfail
    simp [List.any_append]
  · subst hfail
    simp only [if_pos hneg]
    simp [List.any_append]

/-- Witness for `sqlUserInsert_lastId_failure_returns_NoUserID`: a concrete
insert into an empty table whose `LastInsertId` fails. -/
theorem sqlUserInsert_lastId_failure_returns_NoUserID_witness :
    (sqlUserInsert ⟨fun s => .ok s, fun h p => .ok (h = p)⟩ ⟨1, []⟩ 0
        "alice" "A" "L" "a@b" "pw" (.error ())).2 = .ok NoUserID ∧
    ((sqlUserInsert ⟨fun s => .ok s, fun h p => .ok (h = p)⟩ ⟨1, []⟩ 0
        "alice" "A" "L" "a@b" "pw" (.error ())).1).rows.any
      (fun r => r.username = "alice") = true :=
  sqlUserInsert_lastId_failure_returns_NoUserID
    ⟨fun s => .ok s, fun h p => .ok (h = p)⟩ ⟨1, []⟩ 0
    "alice" "A" "L" "a@b" "pw" "pw" (.error ()) rfl rfl (Or.inl rfl)

/-! ## Claim C6 -/

theorem saddCmd_ttl_field (st : RedisState) (k m : String) :
    (saddCmd st k m).ttl = st.ttl := by
  unfold saddCmd
  split
  · split <;> rfl
  · rfl

theorem saddCmd_isSome (st : RedisState) (k m : String) :
    (alookup (saddCmd st k m).data k).isSome := by
  unfold saddCmd
  split
  · rename_i ms hms
    split
    · rw [hms]; rfl
    · simp [alookup_aset_self]
  · simp [alookup_aset_self]

/-- The `delAll = false` sweep never touches a key that is not of the form
`SessionPrefix ++ member`. -/
theorem delUserKeys_false_lookup (h : RedisSessionHandler) (st : RedisState)
    (uid k : String) (hk : ∀ m : String, h.sessionPfx ++ m ≠ k) :
    alookup ((delUserKeys h st uid false).1).data k = alookup st.data k ∧
    alookup ((delUserKeys h st uid false).1).ttl k = alookup st.ttl k := by
  unfold delUserKeys
  set ks := (smembersCmd st uid).foldl
    (fun ks userKey =>
      if (false : Bool) then ks ++ [userKey]
      else if rexists st (h.sessionPfx ++ userKey) = 0 then
        ks ++ [h.sessionPfx ++ userKey]
      else ks) [] with hks
  by_cases hne : ks ≠ []
  · simp only [if_pos hne]
    refine delCmd_lookup_ne ks st k ?_
    intro x hx
    rcases delUserKeys_sweep_keys h st (smembersCmd st uid) [] x (by rw [← hks]; exact hx) with
      h0 | ⟨m, _, rfl⟩
    · cases h0
    · exact hk m
  · simp only [if_neg hne]
    simp

theorem max_of_ite_gt (a b : Int) : (if a > b then a else b) = max a b := by
  rw [max_def]
  split <;> split <;> omega

/-- **C6.**  The maintenance step triggered by `CreateEntry` sets the
per-user set's TTL to the maximum of the set's current TTL (as the `TTL`
command reports it, after the `SADD`) and the new session's `validDuration`,
and the TTL it leaves is never below the TTL the set had before the step
(`-2`/`-1` are the Redis sentinels for "no key"/"no TTL"). -/
theorem redis_userSet_ttl_max_monotone (st : RedisState) (user : Nat)
    (key : String) (d : Nat) (hd : 0 < d) :
    ttlCmd (redisCreateEntryMaintain newRedisSessionHandler st user key d)
        ("usessions:" ++ formatNat user)
      = max (ttlCmd (saddCmd st ("usessions:" ++ formatNat user) key)
          ("usessions:" ++ formatNat user)) (d : Int) ∧
    ttlCmd st ("usessions:" ++ formatNat user)
      ≤ ttlCmd (redisCreateEntryMaintain newRedisSessionHandler st user key d)
          ("usessions:" ++ formatNat user) := by
  set uid := "usessions:" ++ formatNat user with huid
  set st1 := saddCmd st uid key with hst1
  set ttl1 := ttlCmd st1 uid with httl1
  set userExp : Int := if ttl1 > (d : Int) then ttl1 else (d : Int) with hexp
  have hexp_pos : ¬ userExp ≤ 0 := by
    rw [hexp]
    split <;> omega
  have hexp_max : userExp = max ttl1 (d : Int) := max_of_ite_gt ttl1 (d : Int)
  have hsome : (alookup st1.data uid).isSome := saddCmd_isSome st uid key
  -- the maintenance step is definitionally the sweep applied after the EXPIRE
  have hform : redisCreateEntryMaintain newRedisSessionHandler st user key d
      = (delUserKeys newRedisSessionHandler (expireCmd st1 uid userExp) uid false).1 :=
    rfl
  -- the EXPIRE with a positive duration updates only the TTL table
  have hst2 : expireCmd st1 uid userExp
      = { st1 with ttl := aset st1.ttl uid userExp } := by
    unfold expireCmd
    rw [if_pos hsome, if_neg hexp_pos]
  have hkeep := delUserKeys_false_lookup newRedisSessionHandler
    { st1 with ttl := aset st1.ttl uid userExp } uid uid
    (fun m => skey_ne_usessions m (formatNat user))
  rcases Option.isSome_iff_exists.mp hsome with ⟨v, hv⟩
  have httl_final :
      ttlCmd (redisCreateEntryMaintain newRedisSessionHandler st user key d) uid
        = userExp := by
    rw [hform, hst2]
    unfold ttlCmd
    rw [hkeep.1, hkeep.2]
    show (match alookup st1.data uid with
      | none => (-2 : Int)
      | some _ =>
        match alookup (aset st1.ttl uid userExp) uid with
        | some t => t
        | none => -1) = userExp
    rw [hv, alookup_aset_self]
  constructor
  · rw [httl_final, hexp_max]
  · rw [httl_final, hexp_max]
    by_cases hpres : (alookup st.data uid).isSome
    · have hsame : ttlCmd st uid = ttl1 := by
        rw [httl1, hst1]
        unfold ttlCmd
        rw [saddCmd_ttl_field]
        rcases Option.isSome_iff_exists.mp hpres with ⟨w, hw⟩
        rw [hw]
        rw [hst1] at hv
        rw [hv]
      rw [hsame]
      exact le_max_left _ _
    · have hnone : ttlCmd st uid = -2 := by
        unfold ttlCmd
        rw [Option.not_isSome_iff_eq_none.mp hpres]
      rw [hnone]
      have := le_max_right ttl1 (d : Int)
      omega

/-- Witness for `redis_userSet_ttl_max_monotone`: maintenance for user 7,
key `"k"`, 60 seconds, from the empty keyspace. -/
theorem redis_userSet_ttl_max_monotone_witness :
    ttlCmd (redisCreateEntryMaintain newRedisSessionHandler ⟨[], []⟩ 7 "k" 60)
        ("usessions:" ++ formatNat 7)
      = max (ttlCmd (saddCmd ⟨[], []⟩ ("usessions:" ++ formatNat 7) "k")
          ("usessions:" ++ formatNat 7)) (60 : Int) ∧
    ttlCmd (⟨[], []⟩ : RedisState) ("usessions:" ++ formatNat 7)
      ≤ ttlCmd (redisCreateEntryMaintain newRedisSessionHandler ⟨[], []⟩ 7 "k" 60)
          ("usessions:" ++ formatNat 7) :=
  redis_userSet_ttl_max_monotone ⟨[], []⟩ 7 "k" 60 (by decide)

/-! ## Claim C4 -/

/-- **C4.**  On both backends, a successful `CreateEntry(user, key, d)` at
time `now` on a fresh key returns the record
`{user, creationTime = now, validUntil = now + d}` (so
`validUntil - creationTime = d`), and an immediately following
`GetData(key)` on the same backend returns that same record — for the
key-value backend including the storage round-trip through the textual
timestamp format and the default `ConvertUser`. -/
theorem createEntry_getData_roundtrip (st : RedisState)
    (rows : List SQLSessionRow) (now user d : Nat) (key : String)
    (huser : user < 2^64) (hd : 0 < d)
    (hfresh : alookup st.data (newRedisSessionHandler.sessionPfx ++ key) = none)
    (hfreshSql : rows.any (fun r => r.key = key) = false) :
    (redisCreateEntry newRedisSessionHandler st now user key d).2
      = ⟨user, now, now + d⟩ ∧
    (redisCreateEntry newRedisSessionHandler st now user key d).2.validUntil
      - (redisCreateEntry newRedisSessionHandler st now user key d).2.creationTime = d ∧
    redisGetData newRedisSessionHandler
      (redisCreateEntry newRedisSessionHandler st now user key d).1 key
      = .ok ⟨user, now, now + d⟩ ∧
    (sqlCreateEntry rows now user key d).2 = .ok ⟨user, now, now + d⟩ ∧
    sqlGetData (sqlCreateEntry rows now user key d).1 key
      = .ok ⟨user, now, now + d⟩ := by
  have hdle : ¬ ((d : Nat) : Int) ≤ 0 := by omega
  set K := newRedisSessionHandler.sessionPfx ++ key with hK
  set F := [("User", formatNat user), ("CreationTime", formatNat now),
            ("ValidUntil", formatNat (now + d))] with hF
  have hm : alookup (hmsetCmd st K F).data K
      = some (.hash [("User", formatNat user), ("CreationTime", formatNat now),
                     ("ValidUntil", formatNat (now + d))]) := by
    unfold hmsetCmd
    rw [hfresh]
    exact alookup_aset_self _ _ _
  have hst1 : (redisCreateEntry newRedisSessionHandler st now user key d).1
      = expireCmd (hmsetCmd st K F) K ((d : Nat) : Int) := rfl
  have hexp_data : (expireCmd (hmsetCmd st K F) K ((d : Nat) : Int)).data
      = (hmsetCmd st K F).data := by
    unfold expireCmd
    rw [if_pos (by rw [hm]; rfl), if_neg hdle]
  have hfields : hmgetCmd (redisCreateEntry newRedisSessionHandler st now user key d).1
      K ["User", "CreationTime", "ValidUntil"]
      = [some (formatNat user), some (formatNat now), some (formatNat (now + d))] := by
    rw [hst1]
    unfold hmgetCmd
    rw [hexp_data, hm]
    rfl
  refine ⟨rfl, by show now + d - now = d; omega, ?_, ?_, ?_⟩
  · unfold redisGetData
    rw [← hK, hfields]
    simp [sessionDataFrom, parseUint_formatNat huser, parseDec_formatNat]
  · unfold sqlCreateEntry
    simp only [hfreshSql, Bool.false_eq_true, if_false]
    rfl
  · unfold sqlCreateEntry
    simp only [hfreshSql, Bool.false_eq_true, if_false]
    unfold sqlGetData
    rw [List.find?_append]
    have hnone : rows.find? (fun r => r.key = key) = none := by
      rw [List.find?_eq_none]
      intro r hr
      have := (List.any_eq_false).mp hfreshSql r hr
      simpa using this
    rw [hnone]
    simp [List.find?_cons]
    exact ⟨rfl, rfl⟩

/-- Witness for `createEntry_getData_roundtrip`: user 7, key `"k"`,
duration 60, at time 100, on the empty key-value store and the empty
table. -/
theorem createEntry_getData_roundtrip_witness :
    (redisCreateEntry newRedisSessionHandler ⟨[], []⟩ 100 7 "k" 60).2
      = ⟨7, 100, 160⟩ ∧
    (redisCreateEntry newRedisSessionHandler ⟨[], []⟩ 100 7 "k" 60).2.validUntil
      - (redisCreateEntry newRedisSessionHandler ⟨[], []⟩ 100 7 "k" 60).2.creationTime = 60 ∧
    redisGetData newRedisSessionHandler
      (redisCreateEntry newRedisSessionHandler ⟨[], []⟩ 100 7 "k" 60).1 "k"
      = .ok ⟨7, 100, 160⟩ ∧
    (sqlCreateEntry [] 100 7 "k" 60).2 = .ok ⟨7, 100, 160⟩ ∧
    sqlGetData (sqlCreateEntry [] 100 7 "k" 60).1 "k" = .ok ⟨7, 100, 160⟩ :=
  createEntry_getData_roundtrip ⟨[], []⟩ [] 100 7 60 "k"
    (by norm_num) (by decide) rfl rfl

/-! ## Claim C3 -/

/-- **C3.**  The `Validate` contract, on both credential backends, after
inserting user `alice`: validating a nonexistent user `bob` fails with
`ErrUserNotFound`; validating `alice` with a password whose check fails
returns the sentinel `NoUserID` with no error; validating `alice` with the
matching password returns alice's real ID (the ID assigned at insert) with
no error. -/
theorem validate_three_outcomes (p : PasswordHandler) (st0 : RedisState)
    (db0 : SQLUserDB) (now : Nat) (lastIdRes : Except Unit Int)
    (alice bob fn ln em plainPW wrongPW enc : String)
    (hgen : p.generateHash plainPW = .ok enc)
    (hok : p.checkPassword enc plainPW = .ok true)
    (hbad : p.checkPassword enc wrongPW = .ok false)
    (hne : bob ≠ alice)
    (hA : alookup st0.data ("user:" ++ alice) = none)
    (hB : alookup st0.data ("user:" ++ bob) = none)
    (hC : alookup st0.data "nxtUserid" = none)
    (hAsql : db0.rows.any (fun r => r.username = alice) = false)
    (hBsql : db0.rows.any (fun r => r.username = bob) = false) :
    (redisUserInsert newRedisUserHandler p st0 now alice fn ln em plainPW true).2
      = .ok 1 ∧
    redisUserValidate newRedisUserHandler p
      (redisUserInsert newRedisUserHandler p st0 now alice fn ln em plainPW true).1
      alice plainPW = .ok 1 ∧
    redisUserValidate newRedisUserHandler p
      (redisUserInsert newRedisUserHandler p st0 now alice fn ln em plainPW true).1
      alice wrongPW = .ok NoUserID ∧
    redisUserValidate newRedisUserHandler p
      (redisUserInsert newRedisUserHandler p st0 now alice fn ln em plainPW true).1
      bob plainPW = .error .userNotFound ∧
    sqlUserValidate p
      (sqlUserInsert p db0 now alice fn ln em plainPW lastIdRes).1
      alice plainPW = .ok db0.nextId ∧
    sqlUserValidate p
      (sqlUserInsert p db0 now alice fn ln em plainPW lastIdRes).1
      alice wrongPW = .ok NoUserID ∧
    sqlUserValidate p
      (sqlUserInsert p db0 now alice fn ln em plainPW lastIdRes).1
      bob plainPW = .error .userNotFound := by
  have epfx : (newRedisUserHandler.userPfx : String) = "user:" := rfl
  have enext : (newRedisUserHandler.nextIDKey : String) = "nxtUserid" := rfl
  have eid : (newRedisUserHandler.userIDPfx : String) = "userID:" := rfl
  have hrex : rexists st0 ("user:" ++ alice) = 0 := by
    unfold rexists
    rw [hA]
    rfl
  have hincr : incrCmd st0 "nxtUserid"
      = ({ st0 with data := aset st0.data "nxtUserid" (.str (formatNat 1)) }, .ok 1) := by
    unfold incrCmd
    rw [hC]
  have hins : redisUserInsert newRedisUserHandler p st0 now alice fn ln em plainPW true
      = (setCmd
          (hmsetCmd { st0 with data := aset st0.data "nxtUserid" (.str (formatNat 1)) }
            ("user:" ++ alice)
            [("id", formatNat 1), ("username", alice), ("firstName", fn),
             ("lastName", ln), ("email", em), ("is_active", "1"),
             ("last_login", formatNat now), ("password", enc)])
          ("userID:" ++ formatNat 1) alice, .ok 1) := by
    unfold redisUserInsert
    rw [hgen]
    simp only [epfx, enext, eid, hrex, hincr]
    norm_num
  -- the fields stored for alice
  have hu : alookup ((redisUserInsert newRedisUserHandler p st0 now alice fn ln em
        plainPW true).1).data ("user:" ++ alice)
      = some (.hash [("id", formatNat 1), ("username", alice), ("firstName", fn),
          ("lastName", ln), ("email", em), ("is_active", "1"),
          ("last_login", formatNat now), ("password", enc)]) := by
    rw [hins]
    dsimp only
    unfold setCmd
    dsimp only
    rw [alookup_aset_ne _ _ (Ne.symm (userkey_ne_useridkey alice (formatNat 1)))]
    unfold hmsetCmd
    dsimp only
    rw [alookup_aset_ne _ _ (Ne.symm (userkey_ne_nextIDKey alice)), hA]
    exact alookup_aset_self _ _ _
  have hbobNone : alookup ((redisUserInsert newRedisUserHandler p st0 now alice fn ln em
        plainPW true).1).data ("user:" ++ bob) = none := by
    rw [hins]
    dsimp only
    unfold setCmd
    dsimp only
    rw [alookup_aset_ne _ _ (Ne.symm (userkey_ne_useridkey bob (formatNat 1)))]
    unfold hmsetCmd
    dsimp only
    rw [alookup_aset_ne _ _ (fun hEq => hne (strAppend_left_inj hEq.symm))]
    rw [alookup_aset_ne _ _ (Ne.symm (userkey_ne_nextIDKey bob))]
    exact hB
  have hmgA : hmgetCmd ((redisUserInsert newRedisUserHandler p st0 now alice fn ln em
        plainPW true).1) ("user:" ++ alice) ["id", "password"]
      = [some (formatNat 1), some enc] := by
    unfold hmgetCmd
    rw [hu]
    rfl
  have hmgB : hmgetCmd ((redisUserInsert newRedisUserHandler p st0 now alice fn ln em
        plainPW true).1) ("user:" ++ bob) ["id", "password"] = [none, none] := by
    unfold hmgetCmd
    rw [hbobNone]
    rfl
  -- the SQL table after the insert
  have hdb1 : (sqlUserInsert p db0 now alice fn ln em plainPW lastIdRes).1
      = { nextId := db0.nextId + 1,
          rows := db0.rows ++ [⟨db0.nextId, alice, fn, ln, em, enc, true, now⟩] } := by
    unfold sqlUserInsert
    rw [hgen]
    simp only [hAsql, Bool.false_eq_true, if_false]
    rcases lastIdRes with _ | v
    · rfl
    · dsimp only
      split <;> rfl
  have hfindA : ((sqlUserInsert p db0 now alice fn ln em plainPW lastIdRes).1).rows.find?
      (fun r => r.username = alice)
      = some ⟨db0.nextId, alice, fn, ln, em, enc, true, now⟩ := by
    rw [hdb1]
    simp only []
    rw [List.find?_append]
    have : db0.rows.find? (fun r => r.username = alice) = none := by
      rw [List.find?_eq_none]
      intro r hr
      simpa using (List.any_eq_false).mp hAsql r hr
    rw [this]
    simp [List.find?_cons]
  have hfindB : ((sqlUserInsert p db0 now alice fn ln em plainPW lastIdRes).1).rows.find?
      (fun r => r.username = bob) = none := by
    rw [hdb1]
    simp only []
    rw [List.find?_append]
    have h1 : db0.rows.find? (fun r => r.username = bob) = none := by
      rw [List.find?_eq_none]
      intro r hr
      simpa using (List.any_eq_false).mp hBsql r hr
    rw [h1]
    simp [List.find?_cons, Ne.symm hne]
  refine ⟨by rw [hins], ?_, ?_, ?_, ?_, ?_, ?_⟩
  · unfold redisUserValidate
    simp only [epfx, hmgA, validateFrom, hok,
      parseUint_formatNat (show (1:Nat) < 2^64 by norm_num)]
  · unfold redisUserValidate
    simp only [epfx, hmgA, validateFrom, hbad]
  · unfold redisUserValidate
    simp only [epfx, hmgB, validateFrom]
  · unfold sqlUserValidate
    simp only [hfindA, hok]
  · unfold sqlUserValidate
    simp only [hfindA, hbad]
  · unfold sqlUserValidate
    simp only [hfindB]

/-- Witness for `validate_three_outcomes`: concrete hasher (hash = plaintext
tagged), users `"alice"`/`"bob"`, empty stores. -/
theorem validate_three_outcomes_witness :
    (redisUserInsert newRedisUserHandler
        ⟨fun s => .ok ("h" ++ s), fun h s => .ok (h = "h" ++ s)⟩
        ⟨[], []⟩ 0 "alice" "A" "L" "a@b" "pw" true).2 = .ok 1 ∧
    redisUserValidate newRedisUserHandler
        ⟨fun s => .ok ("h" ++ s), fun h s => .ok (h = "h" ++ s)⟩
        (redisUserInsert newRedisUserHandler
          ⟨fun s => .ok ("h" ++ s), fun h s => .ok (h = "h" ++ s)⟩
          ⟨[], []⟩ 0 "alice" "A" "L" "a@b" "pw" true).1
        "alice" "pw" = .ok 1 ∧
    redisUserValidate newRedisUserHandler
        ⟨fun s => .ok ("h" ++ s), fun h s => .ok (h = "h" ++ s)⟩
        (redisUserInsert newRedisUserHandler
          ⟨fun s => .ok ("h" ++ s), fun h s => .ok (h = "h" ++ s)⟩
          ⟨[], []⟩ 0 "alice" "A" "L" "a@b" "pw" true).1
        "alice" "bad" = .ok NoUserID ∧
    redisUserValidate newRedisUserHandler
        ⟨fun s => .ok ("h" ++ s), fun h s => .ok (h = "h" ++ s)⟩
        (redisUserInsert newRedisUserHandler
          ⟨fun s => .ok ("h" ++ s), fun h s => .ok (h = "h" ++ s)⟩
          ⟨[], []⟩ 0 "alice" "A" "L" "a@b" "pw" true).1
        "bob" "pw" = .error .userNotFound ∧
    sqlUserValidate ⟨fun s => .ok ("h" ++ s), fun h s => .ok (h = "h" ++ s)⟩
        (sqlUserInsert ⟨fun s => .ok ("h" ++ s), fun h s => .ok (h = "h" ++ s)⟩
          ⟨5, []⟩ 0 "alice" "A" "L" "a@b" "pw" (.ok 5)).1
        "alice" "pw" = .ok 5 ∧
    sqlUserValidate ⟨fun s => .ok ("h" ++ s), fun h s => .ok (h = "h" ++ s)⟩
        (sqlUserInsert ⟨fun s => .ok ("h" ++ s), fun h s => .ok (h = "h" ++ s)⟩
          ⟨5, []⟩ 0 "alice" "A" "L" "a@b" "pw" (.ok 5)).1
        "alice" "bad" = .ok NoUserID ∧
    sqlUserValidate ⟨fun s => .ok ("h" ++ s), fun h s => .ok (h = "h" ++ s)⟩
        (sqlUserInsert ⟨fun s => .ok ("h" ++ s), fun h s => .ok (h = "h" ++ s)⟩
          ⟨5, []⟩ 0 "alice" "A" "L" "a@b" "pw" (.ok 5)).1
        "bob" "pw" = .error .userNotFound :=
  validate_three_outcomes
    ⟨fun s => .ok ("h" ++ s), fun h s => .ok (h = "h" ++ s)⟩
    ⟨[], []⟩ ⟨5, []⟩ 0 (.ok 5) "alice" "bob" "A" "L" "a@b" "pw" "bad" "hpw"
    rfl (by simp) (by simp) (by simp) rfl rfl rfl rfl rfl

/-! ## Claim C7 -/

/-- **C7 (counterexample).**  A session record that exists at `"skey:k"` but
lacks its `User` field has an unexpected shape, yet `GetData` reports
`ErrKeyNotFound` (the `entry[0] == nil` check fires); likewise a user record
lacking its `id` field makes `Validate` report `ErrUserNotFound`.  Both
contradict the claim that a malformed stored record always yields an error
distinct from the not-found errors. -/
theorem corrupt_record_missing_sentinel_reports_notfound :
    redisGetData newRedisSessionHandler
      ⟨[("skey:k", .hash [("CreationTime", "100"), ("ValidUntil", "200")])], []⟩ "k"
      = .error .keyNotFound ∧
    redisUserValidate newRedisUserHandler ⟨fun s => .ok s, fun h q => .ok (h = q)⟩
      ⟨[("user:alice", .hash [("password", "h")])], []⟩ "alice" "pw"
      = .error .userNotFound :=
  ⟨rfl, rfl⟩

/-- **C7 (amended).**  On the key-value backend, when a stored session or
user record has a field of unexpected shape or type *and* the first field
the code reads is present (`User` for sessions, `id` for users), `GetData`
and `Validate` return an error distinct from the not-found errors and
propagate it rather than coercing the value; when that first field itself is
missing, the corrupt record is reported as not-found
(`ErrKeyNotFound` / `ErrUserNotFound`).  Conjuncts: (1) session hash with
`User` slot non-nil and a missing or unparsable field — `GetData` returns
neither any `ok` value nor either not-found error; (2) user hash with `id`
slot non-nil and `nil` password slot — `Validate` returns the "Weird type"
error, distinct from both not-found errors; (3) session hash whose `User`
slot is nil — `GetData` returns `ErrKeyNotFound`; (4) user hash whose `id`
slot is nil — `Validate` returns `ErrUserNotFound`. -/
theorem corrupt_records_error_distinct_from_notfound :
    (∀ (st : RedisState) (key s0 : String) (e1 e2 : Option String),
      hmgetCmd st ("skey:" ++ key) ["User", "CreationTime", "ValidUntil"]
        = [some s0, e1, e2] →
      (parseUint s0 = none ∨ e1 = none ∨ (∃ s1, e1 = some s1 ∧ parseDec s1 = none)
        ∨ e2 = none ∨ ∃ s2, e2 = some s2 ∧ parseDec s2 = none) →
      (∀ data, redisGetData newRedisSessionHandler st key ≠ .ok data) ∧
      redisGetData newRedisSessionHandler st key ≠ .error .keyNotFound ∧
      redisGetData newRedisSessionHandler st key ≠ .error .userNotFound) ∧
    (∀ (p : PasswordHandler) (st : RedisState) (name pw idStr : String),
      hmgetCmd st ("user:" ++ name) ["id", "password"] = [some idStr, none] →
      redisUserValidate newRedisUserHandler p st name pw = .error .weirdType ∧
      (GoErr.weirdType ≠ GoErr.userNotFound ∧ GoErr.weirdType ≠ GoErr.keyNotFound)) ∧
    (∀ (st : RedisState) (key : String) (e1 e2 : Option String),
      hmgetCmd st ("skey:" ++ key) ["User", "CreationTime", "ValidUntil"]
        = [none, e1, e2] →
      redisGetData newRedisSessionHandler st key = .error .keyNotFound) ∧
    (∀ (p : PasswordHandler) (st : RedisState) (name pw : String)
        (e1 : Option String),
      hmgetCmd st ("user:" ++ name) ["id", "password"] = [none, e1] →
      redisUserValidate newRedisUserHandler p st name pw
        = .error .userNotFound) := by
  refine ⟨?_, ?_, ?_, ?_⟩
  · intro st key s0 e1 e2 hE hmal
    have hE' : redisGetData newRedisSessionHandler st key
        = sessionDataFrom [some s0, e1, e2] := by
      unfold redisGetData
      rw [show (newRedisSessionHandler.sessionPfx : String) = "skey:" from rfl, hE]
    refine ⟨?_, ?_, ?_⟩
    · intro data h
      rw [hE'] at h
      unfold sessionDataFrom at h
      rcases hmal with hp | he1 | ⟨s1, he1, hp1⟩ | he2 | ⟨s2, he2, hp2⟩ <;>
        · (repeat' split at h) <;> simp_all
    · intro h
      rw [hE'] at h
      unfold sessionDataFrom at h
      (repeat' split at h) <;> simp_all
    · intro h
      rw [hE'] at h
      unfold sessionDataFrom at h
      (repeat' split at h) <;> simp_all
  · intro p st name pw idStr hE
    refine ⟨?_, by decide, by decide⟩
    unfold redisUserValidate
    rw [show (newRedisUserHandler.userPfx : String) = "user:" from rfl, hE]
    rfl
  · intro st key e1 e2 hE
    unfold redisGetData
    rw [show (newRedisSessionHandler.sessionPfx : String) = "skey:" from rfl, hE]
    rfl
  · intro p st name pw e1 hE
    unfold redisUserValidate
    rw [show (newRedisUserHandler.userPfx : String) = "user:" from rfl, hE]
    rfl

/-- Witness for `corrupt_records_error_distinct_from_notfound`: a session
hash whose `CreationTime` field is missing, a user hash whose `password`
field is missing, a session hash whose `User` field is missing, and a user
hash whose `id` field is missing. -/
theorem corrupt_records_error_distinct_from_notfound_witness :
    redisGetData newRedisSessionHandler
      ⟨[("skey:k", .hash [("User", "7")])], []⟩ "k" ≠ .error .keyNotFound ∧
    redisUserValidate newRedisUserHandler ⟨fun s => .ok s, fun h p => .ok (h = p)⟩
      ⟨[("user:alice", .hash [("id", "1")])], []⟩ "alice" "pw"
      = .error .weirdType ∧
    redisGetData newRedisSessionHandler
      ⟨[("skey:j", .hash [("CreationTime", "100")])], []⟩ "j"
      = .error .keyNotFound ∧
    redisUserValidate newRedisUserHandler ⟨fun s => .ok s, fun h p => .ok (h = p)⟩
      ⟨[("user:bob", .hash [("password", "x")])], []⟩ "bob" "pw"
      = .error .userNotFound :=
  ⟨(corrupt_records_error_distinct_from_notfound.1
      ⟨[("skey:k", .hash [("User", "7")])], []⟩ "k" "7" none none
      (by decide) (Or.inr (Or.inl rfl))).2.1,
   (corrupt_records_error_distinct_from_notfound.2.1
      ⟨fun s => .ok s, fun h p => .ok (h = p)⟩
      ⟨[("user:alice", .hash [("id", "1")])], []⟩ "alice" "pw" "1"
      (by decide)).1,
   corrupt_records_error_distinct_from_notfound.2.2.1
      ⟨[("skey:j", .hash [("CreationTime", "100")])], []⟩ "j"
      (some "100") none (by decide),
   corrupt_records_error_distinct_from_notfound.2.2.2
      ⟨fun s => .ok s, fun h p => .ok (h = p)⟩
      ⟨[("user:bob", .hash [("password", "x")])], []⟩ "bob" "pw"
      (some "x") (by decide)⟩

/-! ## Claim C8 -/

/-- **C8 (counterexample).**  The claim says `DeleteUser` fails with
`UserNotFound` on the key-value backend when the user does not exist.  On
the empty store, `RedisUserHandler.DeleteUser("alice")` hits the explicit
`if entry[0] == nil { return nil }` branch and reports success. -/
theorem redisDeleteUser_missing_user_no_error :
    redisDeleteUser newRedisUserHandler ⟨[], []⟩ "alice" = (⟨[], []⟩, .ok ()) := by
  rfl

theorem redisListUsersLoop_no_match (st : RedisState) (pfx : String) :
    ∀ (l : List (String × RVal)) (acc : List (Nat × String)),
    l.all (fun kv => !(listStartsWith pfx.data kv.1.data)) = true →
    redisListUsersLoop st pfx l acc = .ok acc := by
  intro l
  induction l with
  | nil => intro acc _; rfl
  | cons kv rest ih =>
    intro acc hall
    rw [List.all_cons, Bool.and_eq_true] at hall
    unfold redisListUsersLoop
    rw [if_neg (by simpa using hall.1)]
    exact ih acc hall.2

/-- **C8 (amended).**  When the username or ID does not resolve — in any
store, populated or not: `GetUserName`, `GetUserID` and `GetUserBaseInfo`
fail with `UserNotFound` on both backends, and `UpdatePassword` does so on
the key-value backend; but `UpdatePassword` on the relational backend and
`DeleteUser` on both backends return success (nil error) for an unresolvable
user; `ListUsers` returns an empty mapping with nil error when no users
exist.  Each conjunct carries only its own resolvability hypothesis; the
no-users condition appears only in the two `ListUsers` conjuncts. -/
theorem notfound_behaviour_per_operation :
    (∀ (p : PasswordHandler) (st : RedisState) (name plainPW enc : String),
      p.generateHash plainPW = .ok enc →
      alookup st.data ("user:" ++ name) = none →
      redisUserUpdatePassword newRedisUserHandler p st name plainPW
        = (st, .error .userNotFound)) ∧
    (∀ (st : RedisState) (id : Nat),
      alookup st.data ("userID:" ++ formatNat id) = none →
      redisGetUserName newRedisUserHandler st id = .error .userNotFound) ∧
    (∀ (st : RedisState) (name : String),
      alookup st.data ("user:" ++ name) = none →
      redisGetUserID newRedisUserHandler st name = .error .userNotFound) ∧
    (∀ (st : RedisState) (name : String),
      alookup st.data ("user:" ++ name) = none →
      redisGetUserBaseInfo newRedisUserHandler st name = .error .userNotFound) ∧
    (∀ (st : RedisState) (name : String),
      alookup st.data ("user:" ++ name) = none →
      (redisDeleteUser newRedisUserHandler st name).2 = .ok ()) ∧
    (∀ (db : SQLUserDB) (id : Nat),
      db.rows.find? (fun r => r.id = id) = none →
      sqlGetUserName db id = .error .userNotFound) ∧
    (∀ (db : SQLUserDB) (name : String),
      db.rows.find? (fun r => r.username = name) = none →
      sqlGetUserID db name = .error .userNotFound) ∧
    (∀ (db : SQLUserDB) (name : String),
      db.rows.find? (fun r => r.username = name) = none →
      sqlGetUserBaseInfo db name = .error .userNotFound) ∧
    (∀ (p : PasswordHandler) (db : SQLUserDB) (name plainPW enc : String),
      p.generateHash plainPW = .ok enc →
      (sqlUpdatePassword p db name plainPW).2 = .ok ()) ∧
    (∀ (db : SQLUserDB) (name : String),
      (sqlDeleteUser db name).2 = .ok ()) ∧
    (∀ st : RedisState,
      st.data.all (fun kv => !(listStartsWith "user:".data kv.1.data)) = true →
      redisListUsers newRedisUserHandler st = .ok []) ∧
    (∀ db : SQLUserDB, db.rows = [] → sqlListUsers db = .ok []) := by
  have epfx : (newRedisUserHandler.userPfx : String) = "user:" := rfl
  have eid : (newRedisUserHandler.userIDPfx : String) = "userID:" := rfl
  have hmg1 : ∀ (st : RedisState) (name : String),
      alookup st.data ("user:" ++ name) = none →
      hmgetCmd st ("user:" ++ name) ["id"] = [none] := by
    intro st name habs
    unfold hmgetCmd
    rw [habs]
    rfl
  refine ⟨?_, ?_, ?_, ?_, ?_, ?_, ?_, ?_, ?_, ?_, ?_, ?_⟩
  · intro p st name plainPW enc hgen habs
    unfold redisUserUpdatePassword
    rw [hgen]
    simp only [epfx]
    rw [if_pos (by unfold rexists; rw [habs]; rfl)]
  · intro st id hidabs
    unfold redisGetUserName getCmd
    simp only [eid]
    rw [hidabs]
  · intro st name habs
    unfold redisGetUserID
    simp only [epfx, hmg1 st name habs]
  · intro st name habs
    have hmg6 : hmgetCmd st ("user:" ++ name)
        ["id", "firstName", "lastName", "email", "is_active", "last_login"]
        = [none, none, none, none, none, none] := by
      unfold hmgetCmd
      rw [habs]
      rfl
    unfold redisGetUserBaseInfo
    simp only [epfx, hmg6]
  · intro st name habs
    unfold redisDeleteUser
    simp only [epfx, hmg1 st name habs]
  · intro db id hdbid
    unfold sqlGetUserName
    rw [hdbid]
  · intro db name hdbname
    unfold sqlGetUserID
    rw [hdbname]
  · intro db name hdbname
    unfold sqlGetUserBaseInfo
    rw [hdbname]
  · intro p db name plainPW enc hgen
    unfold sqlUpdatePassword
    rw [hgen]
  · intro db name
    rfl
  · intro st hscan
    unfold redisListUsers
    exact redisListUsersLoop_no_match st newRedisUserHandler.userPfx st.data [] hscan
  · intro db hempty
    unfold sqlListUsers
    rw [hempty]
    rfl

/-- Witness for `notfound_behaviour_per_operation`: the per-operation
conclusions are exercised for the unknown user `"alice"` / ID 9 in a
*populated* store that holds a different user `"bob"` (ID 2), and the
`ListUsers` conclusions on stores with no users. -/
theorem notfound_behaviour_per_operation_witness :
    redisUserUpdatePassword newRedisUserHandler
        ⟨fun s => .ok s, fun h q => .ok (h = q)⟩
        ⟨[("user:bob", .hash [("id", "2")]), ("userID:2", .str "bob")], []⟩
        "alice" "pw"
      = (⟨[("user:bob", .hash [("id", "2")]), ("userID:2", .str "bob")], []⟩,
         .error .userNotFound) ∧
    redisGetUserName newRedisUserHandler
      ⟨[("user:bob", .hash [("id", "2")]), ("userID:2", .str "bob")], []⟩ 9
      = .error .userNotFound ∧
    redisGetUserID newRedisUserHandler
      ⟨[("user:bob", .hash [("id", "2")]), ("userID:2", .str "bob")], []⟩ "alice"
      = .error .userNotFound ∧
    redisGetUserBaseInfo newRedisUserHandler
      ⟨[("user:bob", .hash [("id", "2")]), ("userID:2", .str "bob")], []⟩ "alice"
      = .error .userNotFound ∧
    (redisDeleteUser newRedisUserHandler
      ⟨[("user:bob", .hash [("id", "2")]), ("userID:2", .str "bob")], []⟩ "alice").2
      = .ok () ∧
    sqlGetUserName ⟨3, [⟨2, "bob", "B", "L", "b@b", "h", true, 0⟩]⟩ 9
      = .error .userNotFound ∧
    sqlGetUserID ⟨3, [⟨2, "bob", "B", "L", "b@b", "h", true, 0⟩]⟩ "alice"
      = .error .userNotFound ∧
    sqlGetUserBaseInfo ⟨3, [⟨2, "bob", "B", "L", "b@b", "h", true, 0⟩]⟩ "alice"
      = .error .userNotFound ∧
    (sqlUpdatePassword ⟨fun s => .ok s, fun h q => .ok (h = q)⟩
      ⟨3, [⟨2, "bob", "B", "L", "b@b", "h", true, 0⟩]⟩ "alice" "pw").2 = .ok () ∧
    (sqlDeleteUser ⟨3, [⟨2, "bob", "B", "L", "b@b", "h", true, 0⟩]⟩ "alice").2
      = .ok () ∧
    redisListUsers newRedisUserHandler ⟨[], []⟩ = .ok [] ∧
    sqlListUsers ⟨1, []⟩ = .ok [] :=
  ⟨notfound_behaviour_per_operation.1 ⟨fun s => .ok s, fun h q => .ok (h = q)⟩
     _ "alice" "pw" "pw" rfl (by decide),
   notfound_behaviour_per_operation.2.1 _ 9 (by decide),
   notfound_behaviour_per_operation.2.2.1 _ "alice" (by decide),
   notfound_behaviour_per_operation.2.2.2.1 _ "alice" (by decide),
   notfound_behaviour_per_operation.2.2.2.2.1 _ "alice" (by decide),
   notfound_behaviour_per_operation.2.2.2.2.2.1 _ 9 (by decide),
   notfound_behaviour_per_operation.2.2.2.2.2.2.1 _ "alice" (by decide),
   notfound_behaviour_per_operation.2.2.2.2.2.2.2.1 _ "alice" (by decide),
   notfound_behaviour_per_operation.2.2.2.2.2.2.2.2.1
     ⟨fun s => .ok s, fun h q => .ok (h = q)⟩ _ "alice" "pw" "pw" rfl,
   notfound_behaviour_per_operation.2.2.2.2.2.2.2.2.2.1 _ "alice",
   notfound_behaviour_per_operation.2.2.2.2.2.2.2.2.2.2.1 ⟨[], []⟩ (by decide),
   notfound_behaviour_per_operation.2.2.2.2.2.2.2.2.2.2.2 ⟨1, []⟩ rfl⟩

/-! ## Claim C9

A small trace semantics over the mutating operations of `RedisUserHandler`,
to speak about "every previously assigned ID".  The ID an `Insert` call
consumes from the counter is the result of its `INCR` — visible in the
call's return value only when the subsequent pipeline write succeeds, so the
trace records it separately. -/

/-- The mutating operations of `RedisUserHandler`. -/
inductive RUserOp where
  | insert (now : Nat) (userName firstName lastName email plainPW : String)
      (writeOk : Bool)
  | updatePassword (userName plainPW : String)
  | deleteUser (userName : String)

/-- The ID consumed from the counter by an `Insert` call: the result of the
`INCR` it performs after passing the duplicate-username check (mirrors the
control flow of `redisUserInsert` up to the `INCR`). -/
def redisUserInsertAssigned (h : RedisUserHandler) (pw : PasswordHandler)
    (st : RedisState) (userName : String) (plainPW : String) : Option Nat :=
  match pw.generateHash plainPW with
  | .error _ => none
  | .ok _ =>
    if rexists st (h.userPfx ++ userName) > 0 then none
    else
      match incrCmd st h.nextIDKey with
      | (_, .ok id) => some id
      | (_, .error _) => none

/-- One step of the trace semantics: the successor state and the ID the step
consumed from the counter, if any. -/
def rstep (h : RedisUserHandler) (pw : PasswordHandler) (st : RedisState) :
    RUserOp → RedisState × Option Nat
  | .insert now un fn ln em pw' wok =>
    ((redisUserInsert h pw st now un fn ln em pw' wok).1,
     redisUserInsertAssigned h pw st un pw')
  | .updatePassword un pw' => ((redisUserUpdatePassword h pw st un pw').1, none)
  | .deleteUser un => ((redisDeleteUser h st un).1, none)

/-- Run a list of operations, collecting the consumed IDs in order. -/
def runOps (h : RedisUserHandler) (pw : PasswordHandler) :
    List RUserOp → RedisState → RedisState × List Nat
  | [], st => (st, [])
  | op :: ops, st =>
    let s := rstep h pw st op
    let r := runOps h pw ops s.1
    (r.1, s.2.toList ++ r.2)

/-- The value of the ID counter (`INCR` key) in a state. -/
def ctr (h : RedisUserHandler) (st : RedisState) : Nat :=
  match alookup st.data h.nextIDKey with
  | some (.str s) => (parseDec s).getD 0
  | _ => 0

theorem ctr_data_eq {st st' : RedisState}
    (hsame : alookup st'.data "nxtUserid" = alookup st.data "nxtUserid") :
    ctr newRedisUserHandler st' = ctr newRedisUserHandler st := by
  unfold ctr
  rw [show (newRedisUserHandler.nextIDKey : String) = "nxtUserid" from rfl, hsame]

/-- `INCR` on the counter key either returns `counter + 1` (storing it), or
fails leaving the state unchanged. -/
theorem incr_nxt_spec (st : RedisState) :
    ((incrCmd st "nxtUserid").2 = .ok (ctr newRedisUserHandler st + 1) ∧
     ctr newRedisUserHandler (incrCmd st "nxtUserid").1
       = ctr newRedisUserHandler st + 1) ∨
    ((∃ e, (incrCmd st "nxtUserid").2 = .error e) ∧
     (incrCmd st "nxtUserid").1 = st) := by
  have hn : (newRedisUserHandler.nextIDKey : String) = "nxtUserid" := rfl
  unfold incrCmd
  cases halook : alookup st.data "nxtUserid" with
  | none =>
    left
    constructor
    · unfold ctr
      rw [hn, halook]
    · unfold ctr
      rw [hn]
      dsimp only
      rw [alookup_aset_self]
      simp [parseDec_formatNat, halook]
  | some v =>
    cases v with
    | str s =>
      cases hp : parseDec s with
      | none => right; exact ⟨⟨.parseFailure, by dsimp only; rw [hp]⟩, by dsimp only; rw [hp]⟩
      | some n =>
        left
        dsimp only
        rw [hp]
        constructor
        · unfold ctr
          rw [hn, halook]
          dsimp only
          rw [hp]
          rfl
        · unfold ctr
          rw [hn]
          dsimp only
          rw [alookup_aset_self]
          simp [parseDec_formatNat, halook, hp]
    | hash fields => right; exact ⟨⟨.weirdType, rfl⟩, rfl⟩
    | set ms => right; exact ⟨⟨.weirdType, rfl⟩, rfl⟩

theorem ctr_updatePassword (p : PasswordHandler) (st : RedisState)
    (un pw' : String) :
    ctr newRedisUserHandler (redisUserUpdatePassword newRedisUserHandler p st un pw').1
      = ctr newRedisUserHandler st := by
  unfold redisUserUpdatePassword
  cases hg : p.generateHash pw' with
  | error e => rfl
  | ok enc =>
    dsimp only
    split
    · rfl
    · refine ctr_data_eq ?_
      unfold hmsetCmd
      dsimp only
      rw [show (newRedisUserHandler.userPfx : String) = "user:" from rfl]
      exact alookup_aset_ne _ _ (userkey_ne_nextIDKey un)

theorem ctr_deleteUser (st : RedisState) (un : String) :
    ctr newRedisUserHandler (redisDeleteUser newRedisUserHandler st un).1
      = ctr newRedisUserHandler st := by
  unfold redisDeleteUser
  dsimp only
  cases hmg : hmgetCmd st (newRedisUserHandler.userPfx ++ un) ["id"] with
  | nil => rfl
  | cons e0 rest =>
    cases rest with
    | cons _ _ => cases e0 <;> rfl
    | nil =>
      cases e0 with
      | none => rfl
      | some idStr =>
        dsimp only
        refine ctr_data_eq ?_
        refine (delCmd_lookup_ne _ st "nxtUserid" ?_).1
        intro x hx
        rcases List.mem_cons.mp hx with rfl | hx'
        · exact userkey_ne_nextIDKey un
        · rcases List.mem_cons.mp hx' with rfl | hx''
          · exact useridkey_ne_nextIDKey idStr
          · cases hx''

/-- An `Insert` that consumes an ID consumes exactly `counter + 1` and
leaves the counter at `counter + 1`, whether or not the pipeline write
succeeds; an `Insert` that consumes no ID leaves the counter unchanged. -/
theorem insert_ctr_assigned (p : PasswordHandler) (st : RedisState) (now : Nat)
    (un fn ln em pw' : String) (wok : Bool) :
    (redisUserInsertAssigned newRedisUserHandler p st un pw' = none →
      ctr newRedisUserHandler
        (redisUserInsert newRedisUserHandler p st now un fn ln em pw' wok).1
      = ctr newRedisUserHandler st) ∧
    (∀ id, redisUserInsertAssigned newRedisUserHandler p st un pw' = some id →
      id = ctr newRedisUserHandler st + 1 ∧
      ctr newRedisUserHandler
        (redisUserInsert newRedisUserHandler p st now un fn ln em pw' wok).1
      = ctr newRedisUserHandler st + 1) := by
  unfold redisUserInsert redisUserInsertAssigned
  have hn : (newRedisUserHandler.nextIDKey : String) = "nxtUserid" := rfl
  cases hg : p.generateHash pw' with
  | error e => exact ⟨fun _ => rfl, fun id h => by cases h⟩
  | ok enc =>
    dsimp only
    split
    · exact ⟨fun _ => rfl, fun id h => by cases h⟩
    · rw [hn]
      cases hi : incrCmd st "nxtUserid" with
      | mk st' res =>
        rcases incr_nxt_spec st with ⟨hok, hctr⟩ | ⟨⟨e, herr⟩, hst⟩
        · -- the INCR succeeded
          rw [hi] at hok hctr
          dsimp only at hok hctr
          subst hok
          constructor
          · intro hcontra
            dsimp only at hcontra
            cases hcontra
          · intro id h
            dsimp only at h
            injection h with h
            subst h
            refine ⟨rfl, ?_⟩
            dsimp only
            cases wok with
            | false => exact hctr
            | true =>
              rw [if_pos rfl]
              have h1 : ∀ stw : RedisState,
                  alookup stw.data "nxtUserid" = alookup st'.data "nxtUserid" →
                  ctr newRedisUserHandler stw = ctr newRedisUserHandler st' :=
                fun stw hw => ctr_data_eq hw
              rw [h1 _ ?_, hctr]
              unfold setCmd
              dsimp only
              rw [show (newRedisUserHandler.userIDPfx : String) = "userID:" from rfl,
                  alookup_aset_ne _ _ (useridkey_ne_nextIDKey (formatNat (ctr newRedisUserHandler st + 1)))]
              unfold hmsetCmd
              dsimp only
              rw [show (newRedisUserHandler.userPfx : String) = "user:" from rfl]
              exact alookup_aset_ne _ _ (userkey_ne_nextIDKey un)
        · -- the INCR failed; the state is unchanged and nothing was consumed
          rw [hi] at herr hst
          dsimp only at herr hst
          subst herr
          subst hst
          constructor
          · intro _
            rfl
          · intro id h
            dsimp only at h
            cases h

/-- A step that consumes no ID does not change the counter. -/
theorem rstep_none_ctr (p : PasswordHandler) (st : RedisState) (op : RUserOp)
    (h : (rstep newRedisUserHandler p st op).2 = none) :
    ctr newRedisUserHandler (rstep newRedisUserHandler p st op).1
      = ctr newRedisUserHandler st := by
  cases op with
  | insert now un fn ln em pw' wok =>
    exact (insert_ctr_assigned p st now un fn ln em pw' wok).1 h
  | updatePassword un pw' => exact ctr_updatePassword p st un pw'
  | deleteUser un => exact ctr_deleteUser st un

/-- A step that consumes an ID consumes `counter + 1` and leaves the counter
there. -/
theorem rstep_some_ctr (p : PasswordHandler) (st : RedisState) (op : RUserOp)
    (id : Nat) (h : (rstep newRedisUserHandler p st op).2 = some id) :
    id = ctr newRedisUserHandler st + 1 ∧
    ctr newRedisUserHandler (rstep newRedisUserHandler p st op).1
      = ctr newRedisUserHandler st + 1 := by
  cases op with
  | insert now un fn ln em pw' wok =>
    exact (insert_ctr_assigned p st now un fn ln em pw' wok).2 id h
  | updatePassword un pw' => cases h
  | deleteUser un => cases h

/-- **C9.**  Along any sequence of `RedisUserHandler` operations, from any
starting state, the IDs consumed from the counter by `Insert` calls that
pass the duplicate-username check are pairwise strictly increasing in trace
order (hence never reused), and every one of them is strictly above the
starting counter value — even when the record write after the `INCR`
fails. -/
theorem inserted_ids_strictly_increasing (p : PasswordHandler)
    (ops : List RUserOp) (st : RedisState) :
    List.Pairwise (· < ·) (runOps newRedisUserHandler p ops st).2 ∧
    ∀ id ∈ (runOps newRedisUserHandler p ops st).2,
      ctr newRedisUserHandler st < id := by
  induction ops generalizing st with
  | nil => exact ⟨List.Pairwise.nil, by intro id h; cases h⟩
  | cons op ops ih =>
    have hrun : runOps newRedisUserHandler p (op :: ops) st
        = ((runOps newRedisUserHandler p ops (rstep newRedisUserHandler p st op).1).1,
           (rstep newRedisUserHandler p st op).2.toList
             ++ (runOps newRedisUserHandler p ops
                  (rstep newRedisUserHandler p st op).1).2) := rfl
    rw [hrun]
    cases ha : (rstep newRedisUserHandler p st op).2 with
    | none =>
      have heq := rstep_none_ctr p st op ha
      rcases ih (rstep newRedisUserHandler p st op).1 with ⟨hpw, hgt⟩
      refine ⟨by simpa using hpw, ?_⟩
      intro id hid
      simp only [Option.toList_none, List.nil_append] at hid
      have := hgt id hid
      omega
    | some newId =>
      rcases rstep_some_ctr p st op newId ha with ⟨hid, hctr⟩
      rcases ih (rstep newRedisUserHandler p st op).1 with ⟨hpw, hgt⟩
      constructor
      · simp only [Option.toList_some, List.singleton_append]
        rw [List.pairwise_cons]
        refine ⟨?_, hpw⟩
        intro a ha'
        have := hgt a ha'
        omega
      · intro id hid
        simp only [Option.toList_some, List.singleton_append, List.mem_cons] at hid
        rcases hid with rfl | hid
        · omega
        · have := hgt id hid
          omega

end Goauth
